import Mathlib

/-!
Verification of the VaultAiAgent strategy-execution pipeline.

This file shallowly embeds the core of the repository:
* the condition evaluator `shouldInvestInLendingProtocol`
  (src/unnamed/part_000, lines 134-170), including its regex
  `/APY\s*([><=]+)\s*([\d.]+)%?/i` and JavaScript `parseFloat` on the
  captured numeral;
* the allocation executor `executeLendingAllocation` (lines 56-126),
  with the percentage guard, the BigInt (truncating) amount computation
  and the two-call batch handed to the vault execute entry point;
* the orchestrator `executeFullStrategy` (lines 177-223);
* the `EXECUTE_YIELD_STRATEGY` action handler `executeStrategyAction`
  (src/src/actions/parseStrategy.ts, lines 301-511), with its dedup
  check, continue-on-error allocation step, IPFS upload and on-chain
  reference anchoring.

Remote collaborators (RPC node, IPFS/Pinata, database) are modelled as
explicit environments carrying the outcome each remote call would
produce; the handler is a pure function from a message state and such
an environment to an event trace, an outcome record and the new
message state.  Numbers observed as JavaScript numbers are modelled as
exact rationals and BigInt values as `Int`.
-/

namespace VaultAgent

/-! ### Character classes of the condition regex -/

/-- The characters matched by JavaScript `\s` (ASCII whitespace, NBSP,
line/paragraph separators, BOM and the Unicode space separators). -/
def wsChars : List Char :=
  [' ', '\t', '\n', '\r', '\x0b', '\x0c', ' ', ' ',
   ' ', ' ', ' ', ' ', ' ', ' ',
   ' ', ' ', ' ', ' ', ' ',
   ' ', ' ', ' ', ' ', '　', '﻿']

/-- JavaScript `\s` as a character predicate. -/
def jsWhitespace (c : Char) : Bool := wsChars.contains c

/-- The character class `[><=]` of the condition regex. -/
def isOpChar (c : Char) : Bool := c = '>' || c = '<' || c = '='

/-- The character class `[\d.]` of the condition regex. -/
def isNumChar (c : Char) : Bool := c.isDigit || c = '.'

/-! ### JavaScript `parseFloat` on `[\d.]+` captures -/

/-- Value of a digit string read in base 10. -/
def digitsToNat (cs : List Char) : Nat :=
  cs.foldl (fun n c => 10 * n + (c.toNat - '0'.toNat)) 0

/-- JavaScript `parseFloat` restricted to the strings the second capture
group `[\d.]+` can produce (digits and dots, no sign, no exponent):
the longest prefix of shape `digits [ '.' digits ]` is read; when that
prefix contains no digit at all the result is `NaN`, modelled as
`none`. -/
def parseFloatNum (cs : List Char) : Option ℚ :=
  let intPart := cs.takeWhile Char.isDigit
  let rest := cs.dropWhile Char.isDigit
  let fracPart : List Char :=
    match rest with
    | '.' :: r => r.takeWhile Char.isDigit
    | _ => []
  if intPart.isEmpty && fracPart.isEmpty then none
  else some ((digitsToNat intPart : ℚ) +
             (digitsToNat fracPart : ℚ) / 10 ^ fracPart.length)

/-! ### The regex `/APY\s*([><=]+)\s*([\d.]+)%?/i`

The character classes `\s`, `[><=]` and `[\d.]` are pairwise disjoint
and `APY` is a literal, so JavaScript's greedy backtracking search is
equivalent to the deterministic scan below: at each start position try
the literal (case-insensitively), then maximal runs of each class; the
leftmost succeeding position wins. -/

/-- Case-insensitive test for the literal `A`. -/
def apyA (c : Char) : Bool := c = 'A' || c = 'a'

/-- Case-insensitive test for the literal `P`. -/
def apyP (c : Char) : Bool := c = 'P' || c = 'p'

/-- Case-insensitive test for the literal `Y`. -/
def apyY (c : Char) : Bool := c = 'Y' || c = 'y'

/-- Match the case-insensitive literal `APY` at the head of the input,
returning the remainder. -/
def matchAPY : List Char → Option (List Char)
  | a :: p :: y :: rest =>
      if apyA a && apyP p && apyY y then some rest else none
  | _ => none

/-- Attempt the whole pattern at the current position; on success
return the two capture groups (operator characters, numeral
characters). -/
def matchCondAt (cs : List Char) : Option (List Char × List Char) :=
  match matchAPY cs with
  | none => none
  | some r1 =>
    let r2 := r1.dropWhile jsWhitespace
    let op := r2.takeWhile isOpChar
    if op.isEmpty then none
    else
      let r3 := (r2.dropWhile isOpChar).dropWhile jsWhitespace
      let num := r3.takeWhile isNumChar
      if num.isEmpty then none else some (op, num)

/-- Leftmost match of the condition pattern: try every start position
from the left, as `String.prototype.match` does. -/
def findCondMatch : List Char → Option (List Char × List Char)
  | [] => none
  | c :: cs =>
    match matchCondAt (c :: cs) with
    | some r => some r
    | none => findCondMatch cs

/-! ### Strategy data model (`StrategySchema`, parseStrategy.ts lines 4-21) -/

/-- The `lendingProtocol` object of a parsed strategy. -/
structure LendingProtocolSettings where
  investmentCondition : String
  fallbackCondition : Option String
  stopLossCondition : Option String
deriving DecidableEq

/-- The `rebalancing` object of a parsed strategy. -/
structure RebalancingSettings where
  frequency : String
  deviationTolerance : String
deriving DecidableEq

/-- The `transactionLimits` object of a parsed strategy. -/
structure TransactionLimitsSettings where
  maxTransactionPercentage : String
  maxSwapSlippage : String
deriving DecidableEq

/-- The inner `strategy` object.  `assetAllocation` is a JSON record
from asset label to numeric percentage; the percentages that reach the
executor are converted with `BigInt`, so they are modelled as `Int`. -/
structure StrategyBody where
  assetAllocation : List (String × Int)
  lendingProtocol : LendingProtocolSettings
  rebalancing : RebalancingSettings
  transactionLimits : TransactionLimitsSettings
deriving DecidableEq

/-- A parsed `YieldStrategy` as validated by `StrategySchema`. -/
structure YieldStrategy where
  strategy : StrategyBody
deriving DecidableEq

/-- First-match lookup in a JSON record (a JavaScript object has at
most one entry per key). -/
def lookupAsset : List (String × Int) → String → Option Int
  | [], _ => none
  | (k, v) :: rest, key => if k = key then some v else lookupAsset rest key

/-- Line 69 of part_000, `strategy.strategy.assetAllocation.lendingProtocol || 0`:
(part_000 line 69): a missing entry — and, vacuously, a zero one —
falls back to `0`. -/
def lendingPercentageOf (s : YieldStrategy) : Int :=
  (lookupAsset s.strategy.assetAllocation "lendingProtocol").getD 0

/-! ### Condition evaluator (part_000 lines 134-170) -/

/-- The `switch (operator)` of `shouldInvestInLendingProtocol`: a
`none` threshold is `NaN`, for which every comparison (including
`===`) is false; an operator string outside the six supported cases
falls to the `default` branch and yields `false`. -/
def condCompare (op : List Char) (currentAPY : ℚ) (threshold : Option ℚ) : Bool :=
  match threshold with
  | none => false
  | some t =>
    if op = ['>'] then decide (currentAPY > t)
    else if op = ['>', '='] then decide (currentAPY ≥ t)
    else if op = ['<'] then decide (currentAPY < t)
    else if op = ['<', '='] then decide (currentAPY ≤ t)
    else if op = ['=', '='] || op = ['='] then decide (currentAPY = t)
    else false

/-- Function `shouldInvestInLendingProtocol` (part_000 lines 134-170): match the
condition string against the regex; no match yields `false`, otherwise
the parsed threshold is compared with the current rate. -/
def shouldInvestInLendingProtocol (strategy : YieldStrategy) (currentAPY : ℚ) : Bool :=
  match findCondMatch strategy.strategy.lendingProtocol.investmentCondition.data with
  | none => false
  | some (op, num) => condCompare op currentAPY (parseFloatNum num)

/-! ### Network configuration (src/src/config.ts)

Addresses default to the empty string when not configured; the source
tests them with JavaScript truthiness (`if (!tokenAddress) ...`), so
"configured" means "non-empty". -/

/-- Per-network configuration record (config.ts lines 15-21). -/
structure NetworkConfig where
  rpcUrl : String
  strategyVaultAddress : String
  lendingPoolAddress : String
  tokenAddress : String
  currentAPY : ℚ

/-! ### Allocation executor (part_000 lines 56-126) -/

/-- Errors raised by `executeLendingAllocation` before any transaction
is submitted. -/
inductive ExecError where
  /-- Thrown as `'No allocation for lending protocol found in strategy'` (line 71). -/
  | noAllocation
  /-- Thrown as `'Token address not configured for network ...'` (line 83). -/
  | tokenNotConfigured
deriving DecidableEq

/-- One encoded sub-call of the batch.  `encodeFunctionData` is
abstracted to the function selector and its decoded arguments. -/
inductive CallData where
  /-- Call `approve(spender, amount)` on the ERC20 token. -/
  | approve (spender : String) (amount : Int)
  /-- Call `deposit(amount)` on the lending pool. -/
  | deposit (amount : Int)
deriving DecidableEq

/-- The single transaction handed to the vault's batched
`execute(contracts, data, msgValues)` entry point (lines 104-114). -/
structure ExecuteTx where
  vault : String
  contracts : List String
  callData : List CallData
  msgValues : List Int
deriving DecidableEq

/-- Lines 69-75 of `executeLendingAllocation`, the Allocation
Calculator of spec §4.2: guard `lendingPercentage <= 0`, then
`ethers.toBigInt(totalAmount) * BigInt(lendingPercentage) / 100n`.
BigInt division truncates toward zero, which is `Int.tdiv`. -/
def computeAmount (totalBalance percentage : Int) : Except ExecError Int :=
  if percentage ≤ 0 then Except.error ExecError.noAllocation
  else Except.ok (Int.tdiv (totalBalance * percentage) 100)

/-- Function `executeLendingAllocation` (part_000 lines 56-126) up to the
submission of the batch: compute the amount, check the token address
is configured, and build the two-call batch `[approve, deposit]` with
`msgValues = [0, 0]` addressed to `[tokenAddress, lendingPoolAddress]`. -/
def executeLendingAllocation (strategy : YieldStrategy)
    (vaultAddress lendingPoolAddress : String) (totalAmount : Int)
    (cfg : NetworkConfig) : Except ExecError ExecuteTx :=
  match computeAmount totalAmount (lendingPercentageOf strategy) with
  | Except.error e => Except.error e
  | Except.ok amountToDeposit =>
    if cfg.tokenAddress = "" then Except.error ExecError.tokenNotConfigured
    else Except.ok
      { vault := vaultAddress
        contracts := [cfg.tokenAddress, lendingPoolAddress]
        callData := [CallData.approve lendingPoolAddress amountToDeposit,
                     CallData.deposit amountToDeposit]
        msgValues := [0, 0] }

/-! ### Full-strategy orchestrator (part_000 lines 177-223) -/

/-- An RPC failure or on-chain revert surfaced by a remote call
(`ChainExecutionError` of spec §7), carrying the underlying message. -/
structure ChainErr where
  message : String
deriving DecidableEq

/-- A mined transaction receipt. -/
structure Receipt where
  hash : String
  blockNumber : Int
deriving DecidableEq

/-- Errors `executeFullStrategy` can throw. -/
inductive StratError where
  /-- A required address is missing (lines 188-194). -/
  | configMissing (which : String)
  /-- A remote call threw (balance read or transaction submission). -/
  | chain (e : ChainErr)
  /-- Raised when `executeLendingAllocation` rejected the strategy. -/
  | alloc (e : ExecError)
deriving DecidableEq

/-- Outcomes of the remote chain calls an invocation would perform:
what `vault.totalAssets()` returns (or throws), and what submitting
the batch returns (or throws). -/
structure ChainEnv where
  balance : Except ChainErr Int
  submitResult : Except ChainErr Receipt

/-- Externally observable side-effecting steps, in order of
occurrence. -/
inductive Event where
  /-- Call to `runtime.getMemories` (database read). -/
  | fetchMemories
  /-- RPC read `vault.totalAssets()`. -/
  | balanceRead
  /-- The batched allocation transaction is submitted. -/
  | submitTx (tx : ExecuteTx)
  /-- Invocation of `uploadToIPFS` (Pinata HTTP call). -/
  | uploadIpfs
  /-- Submission of the `setStrategyReference(strategyId, url)` transaction. -/
  | anchorTx (strategyId : Int) (url : String)
  /-- Write of the `runtime.createMemory` execution record. -/
  | storeRecord
  /-- Reply `callback(...)` to the user. -/
  | callbackToUser
deriving DecidableEq

/-- Function `executeFullStrategy` (lines 177-223) with its externally visible
events: validate configuration, gate on the APY condition, read the
balance, skip on empty vault, build and submit the batch.  The result
pairs the event trace with the returned value (`none` models the
source's `null`). -/
def runFullStrategy (strategy : YieldStrategy) (cfg : NetworkConfig)
    (env : ChainEnv) : List Event × Except StratError (Option (ExecuteTx × Receipt)) :=
  if cfg.strategyVaultAddress = "" then
    ([], Except.error (StratError.configMissing "strategyVault"))
  else if cfg.lendingPoolAddress = "" then
    ([], Except.error (StratError.configMissing "lendingPool"))
  else if shouldInvestInLendingProtocol strategy cfg.currentAPY then
    match env.balance with
    | Except.error e => ([Event.balanceRead], Except.error (StratError.chain e))
    | Except.ok totalAmount =>
      if totalAmount ≤ 0 then ([Event.balanceRead], Except.ok none)
      else
        match executeLendingAllocation strategy cfg.strategyVaultAddress
            cfg.lendingPoolAddress totalAmount cfg with
        | Except.error e => ([Event.balanceRead], Except.error (StratError.alloc e))
        | Except.ok tx =>
          match env.submitResult with
          | Except.error e =>
            ([Event.balanceRead, Event.submitTx tx], Except.error (StratError.chain e))
          | Except.ok receipt =>
            ([Event.balanceRead, Event.submitTx tx], Except.ok (some (tx, receipt)))
  else ([], Except.ok none)

/-- The value `executeFullStrategy` returns (or throws), without the
event trace. -/
def executeFullStrategy (strategy : YieldStrategy) (cfg : NetworkConfig)
    (env : ChainEnv) : Except StratError (Option (ExecuteTx × Receipt)) :=
  (runFullStrategy strategy cfg env).2

/-! ### `EXECUTE_YIELD_STRATEGY` handler
    (src/src/actions/parseStrategy.ts lines 301-511) -/

/-- Result of `uploadToIPFS` (src/src/utils/ipfsUpload.ts lines 59-63). -/
structure IpfsResult where
  cid : String
  gatewayUrl : String
  pinataUrl : String
deriving DecidableEq

/-- Upload failure: missing `PINATA_JWT` or a non-2xx Pinata response. -/
structure PublishErr where
  message : String
deriving DecidableEq

/-- Outcomes of the external collaborators the handler consults:
the most recent stored strategy (`none` when `getMemories` returns an
empty list, `Except.error` when the stored text fails schema
validation), the chain behaviour, the Pinata upload outcome, and the
`setStrategyReference` outcome. -/
structure ActionEnv where
  cfg : NetworkConfig
  storedStrategy : Option (Except String YieldStrategy)
  chain : ChainEnv
  ipfs : Except PublishErr IpfsResult
  anchorResult : Except ChainErr Receipt

/-- The composite, user-visible outcome of one handler invocation
(spec §3 `ExecutionOutcome`): receipt or recorded error per step. -/
structure Outcome where
  allocationReceipt : Option Receipt
  allocationError : Option StratError
  ipfsData : Option IpfsResult
  anchorReceipt : Option Receipt
  anchorError : Option ChainErr
deriving DecidableEq

/-- The outcome of an invocation that did nothing. -/
def emptyOutcome : Outcome :=
  { allocationReceipt := none, allocationError := none, ipfsData := none
    anchorReceipt := none, anchorError := none }

/-- The mutable part of an inbound message the handler touches:
its identifier and its `content.processed` marker. -/
structure Msg where
  id : String
  processed : Option String
deriving DecidableEq

/-- What one handler invocation produced: the ordered external events,
the outcome, and the message state after the run. -/
structure ActionResult where
  events : List Event
  outcome : Outcome
  msgAfter : Msg
deriving DecidableEq

/-- The substantive body of the handler, run only when the message is
not yet marked processed (lines 341-497): fetch the stored strategy,
run the full strategy catching errors, upload to IPFS, anchor when the
upload produced a truthy `cid`, store the record and call back. -/
def executionPhases (env : ActionEnv) : List Event × Outcome :=
  match env.storedStrategy with
  | none => ([Event.fetchMemories, Event.callbackToUser], emptyOutcome)
  | some (Except.error _) => ([Event.fetchMemories, Event.callbackToUser], emptyOutcome)
  | some (Except.ok strategy) =>
    let chainRun := runFullStrategy strategy env.cfg env.chain
    let allocationReceipt : Option Receipt :=
      match chainRun.2 with
      | Except.ok (some (_, receipt)) => some receipt
      | _ => none
    let allocationError : Option StratError :=
      match chainRun.2 with
      | Except.error e => some e
      | _ => none
    match env.ipfs with
    | Except.error _ =>
      (Event.fetchMemories :: chainRun.1 ++
         [Event.uploadIpfs, Event.storeRecord, Event.callbackToUser],
       { allocationReceipt := allocationReceipt
         allocationError := allocationError
         ipfsData := none, anchorReceipt := none, anchorError := none })
    | Except.ok res =>
      if res.cid = "" then
        (Event.fetchMemories :: chainRun.1 ++
           [Event.uploadIpfs, Event.storeRecord, Event.callbackToUser],
         { allocationReceipt := allocationReceipt
           allocationError := allocationError
           ipfsData := some res, anchorReceipt := none, anchorError := none })
      else
        match env.anchorResult with
        | Except.ok receipt =>
          (Event.fetchMemories :: chainRun.1 ++
             [Event.uploadIpfs, Event.anchorTx 1 res.gatewayUrl,
              Event.storeRecord, Event.callbackToUser],
           { allocationReceipt := allocationReceipt
             allocationError := allocationError
             ipfsData := some res, anchorReceipt := some receipt
             anchorError := none })
        | Except.error e =>
          (Event.fetchMemories :: chainRun.1 ++
             [Event.uploadIpfs, Event.anchorTx 1 res.gatewayUrl,
              Event.storeRecord, Event.callbackToUser],
           { allocationReceipt := allocationReceipt
             allocationError := allocationError
             ipfsData := some res, anchorReceipt := none
             anchorError := some e })

/-- The handler of `executeStrategyAction` (parseStrategy.ts lines
322-511) as a pure function.  Faithful control flow: line 331 - if
`message.content.processed === 'EXECUTE_YIELD_STRATEGY'`, return at
once with no external contact; line 339 - mark the message processed;
then run the substantive body.  Note the handler consults only the
message's own `content.processed` field, never `message.id` nor any
process-wide registry. -/
def runExecuteStrategyAction (msg : Msg) (env : ActionEnv) : ActionResult :=
  if msg.processed = some "EXECUTE_YIELD_STRATEGY" then
    { events := [], outcome := emptyOutcome, msgAfter := msg }
  else
    { events := (executionPhases env).1
      outcome := (executionPhases env).2
      msgAfter := { id := msg.id, processed := some "EXECUTE_YIELD_STRATEGY" } }

/-- Number of allocation-batch submissions in an event trace. -/
def countSubmitTx (events : List Event) : Nat :=
  (events.filter fun e =>
    match e with
    | Event.submitTx _ => true
    | _ => false).length

/-! ### Concrete fixtures for witnesses and counterexamples -/

/-- The strategy of the spec §8 end-to-end scenario. -/
def wStrategy : YieldStrategy :=
  ⟨⟨[("lendingProtocol", 70)], ⟨"APY > 6%", none, none⟩,
    ⟨"24 hours", "8%"⟩, ⟨"12%", "1.8%"⟩⟩⟩

/-- A strategy allocating only `stablecoin` and `eth`, with no
`lendingProtocol` entry. -/
def wNoLendingStrategy : YieldStrategy :=
  ⟨⟨[("stablecoin", 70), ("eth", 30)], ⟨"APY > 6%", none, none⟩,
    ⟨"24 hours", "8%"⟩, ⟨"12%", "1.8%"⟩⟩⟩

/-- A strategy whose condition string embeds the pattern inside a
longer, non-well-formed string. -/
def wEmbeddedCondStrategy : YieldStrategy :=
  ⟨⟨[("lendingProtocol", 70)], ⟨"xAPY > 5%", none, none⟩,
    ⟨"24 hours", "8%"⟩, ⟨"12%", "1.8%"⟩⟩⟩

/-- A fully configured network with current rate 7. -/
def wConfig : NetworkConfig :=
  ⟨"https://public-node.testnet.rsk.co/", "0xVault", "0xPool", "0xToken", 7⟩

/-- The batch the end-to-end scenario submits: approve 700000, deposit
700000. -/
def wTx : ExecuteTx :=
  ⟨"0xVault", ["0xToken", "0xPool"],
   [CallData.approve "0xPool" 700000, CallData.deposit 700000], [0, 0]⟩

def wReceipt : Receipt := ⟨"0xallochash", 1001⟩

def wAnchorReceipt : Receipt := ⟨"0xanchorhash", 1002⟩

def wIpfs : IpfsResult :=
  ⟨"bafyCid", "https://ipfs.io/ipfs/bafyCid",
   "https://gateway.pinata.cloud/ipfs/bafyCid"⟩

/-- Healthy chain: balance read returns 1000000, submission mines. -/
def wChainEnv : ChainEnv := ⟨Except.ok 1000000, Except.ok wReceipt⟩

/-- Environment in which every collaborator succeeds. -/
def wActionEnv : ActionEnv :=
  ⟨wConfig, some (Except.ok wStrategy), wChainEnv, Except.ok wIpfs,
   Except.ok wAnchorReceipt⟩

/-- Chain whose RPC fails on every call. -/
def wFailChainEnv : ChainEnv :=
  ⟨Except.error ⟨"rpc down"⟩, Except.error ⟨"rpc down"⟩⟩

/-- Environment whose chain fails but whose publication succeeds. -/
def wFailAllocEnv : ActionEnv :=
  ⟨wConfig, some (Except.ok wStrategy), wFailChainEnv, Except.ok wIpfs,
   Except.ok wAnchorReceipt⟩

/-- Environment whose publication fails. -/
def wPublishFailEnv : ActionEnv :=
  ⟨wConfig, some (Except.ok wStrategy), wChainEnv,
   Except.error ⟨"Pinata upload failed"⟩, Except.ok wAnchorReceipt⟩

/-- Chain with an empty vault. -/
def wZeroBalanceEnv : ChainEnv := ⟨Except.ok 0, Except.ok wReceipt⟩

/-! ### Spec-side formalisation of well-formed condition expressions

Claim C1 speaks of strings of the exact shape `APY {op} T%`
(case-insensitive `APY`, optional whitespace, an operator among
`>, >=, <, <=, ==, =`, a decimal numeral `T`, optional trailing `%`).
The following definitions state that shape independently of the
evaluator's regex scan. -/

/-- The six comparison operators of the claim; `=` and `==` both
denote equality. -/
inductive CmpOp where
  | gt | ge | lt | le | eq
deriving DecidableEq

/-- The operator spellings of each comparison operator. -/
def opTextOf : CmpOp → List (List Char)
  | CmpOp.gt => [['>']]
  | CmpOp.ge => [['>', '=']]
  | CmpOp.lt => [['<']]
  | CmpOp.le => [['<', '=']]
  | CmpOp.eq => [['='], ['=', '=']]

/-- The mathematical comparison each operator denotes. -/
def cmpEval : CmpOp → ℚ → ℚ → Bool
  | CmpOp.gt, r, t => decide (r > t)
  | CmpOp.ge, r, t => decide (r ≥ t)
  | CmpOp.lt, r, t => decide (r < t)
  | CmpOp.le, r, t => decide (r ≤ t)
  | CmpOp.eq, r, t => decide (r = t)

/-- Predicate: `num` spells the decimal numeral whose exact value is `t`: either
a nonempty digit string, or digits, a dot and digits with at least one
digit in total. -/
def NumeralShape (num : List Char) (t : ℚ) : Prop :=
  (∃ ip, ip ≠ [] ∧ (∀ c ∈ ip, c.isDigit = true) ∧ num = ip ∧
    t = (digitsToNat ip : ℚ)) ∨
  (∃ ip fp, (ip ≠ [] ∨ fp ≠ []) ∧
    (∀ c ∈ ip, c.isDigit = true) ∧ (∀ c ∈ fp, c.isDigit = true) ∧
    num = ip ++ '.' :: fp ∧
    t = (digitsToNat ip : ℚ) + (digitsToNat fp : ℚ) / 10 ^ fp.length)

/-- The claim's well-formed shape: the whole string is
`APY ws op ws T pct` for an operator `o` spelt `opc` and a numeral of
value `t`, with `pct` an optional trailing percent sign. -/
def CondShape (cs : List Char) (o : CmpOp) (t : ℚ) : Prop :=
  ∃ a p y w1 opc w2 num pct,
    apyA a = true ∧ apyP p = true ∧ apyY y = true ∧
    (∀ c ∈ w1, jsWhitespace c = true) ∧
    (∀ c ∈ w2, jsWhitespace c = true) ∧
    opc ∈ opTextOf o ∧
    NumeralShape num t ∧
    (pct = [] ∨ pct = ['%']) ∧
    cs = a :: p :: y :: (w1 ++ opc ++ w2 ++ num ++ pct)

/-- Rewriting step: when the regex finds a match, the evaluator is the
switch applied to the captures. -/
lemma shouldInvest_eq_condCompare (s : YieldStrategy) (op num : List Char) (r : ℚ)
    (h : findCondMatch s.strategy.lendingProtocol.investmentCondition.data = some (op, num)) :
    shouldInvestInLendingProtocol s r = condCompare op r (parseFloatNum num) := by
  unfold shouldInvestInLendingProtocol
  rw [h]

/-- Rewriting step: when the regex finds no match, the evaluator
returns `false`. -/
lemma shouldInvest_eq_false {s : YieldStrategy} (r : ℚ)
    (h : findCondMatch s.strategy.lendingProtocol.investmentCondition.data = none) :
    shouldInvestInLendingProtocol s r = false := by
  unfold shouldInvestInLendingProtocol
  rw [h]

/-! Scratch sanity checks mirroring spec §8 examples. -/

example : findCondMatch "APY > 6%".data = some (['>'], ['6']) := by decide

example : findCondMatch "no condition here".data = none := by decide

example : findCondMatch "xAPY > 5%".data = some (['>'], ['5']) := by decide

example : findCondMatch "apy<=3.5".data = some (['<', '='], ['3', '.', '5']) := by decide

example : parseFloatNum ['6'] = some 6 := by
  have h : parseFloatNum ['6'] =
      some ((digitsToNat ['6'] : ℚ) + (digitsToNat [] : ℚ) / 10 ^ (0 : ℕ)) := rfl
  rw [h]
  norm_num [show digitsToNat ['6'] = 6 from by decide,
    show digitsToNat [] = 0 from rfl]

example :
    shouldInvestInLendingProtocol
      ⟨⟨[("lendingProtocol", 70)], ⟨"APY > 6%", none, none⟩,
        ⟨"24 hours", "8%"⟩, ⟨"12%", "1.8%"⟩⟩⟩ 7 = true := by
  rw [shouldInvest_eq_condCompare _ ['>'] ['6'] 7 (by decide)]
  have h : parseFloatNum ['6'] =
      some ((digitsToNat ['6'] : ℚ) + (digitsToNat [] : ℚ) / 10 ^ (0 : ℕ)) := rfl
  unfold condCompare
  rw [h]
  norm_num [show digitsToNat ['6'] = 6 from by decide,
    show digitsToNat [] = 0 from rfl]

example :
    shouldInvestInLendingProtocol
      ⟨⟨[("lendingProtocol", 70)], ⟨"APY > 6%", none, none⟩,
        ⟨"24 hours", "8%"⟩, ⟨"12%", "1.8%"⟩⟩⟩ 5 = false := by
  rw [shouldInvest_eq_condCompare _ ['>'] ['6'] 5 (by decide)]
  have h : parseFloatNum ['6'] =
      some ((digitsToNat ['6'] : ℚ) + (digitsToNat [] : ℚ) / 10 ^ (0 : ℕ)) := rfl
  unfold condCompare
  rw [h]
  norm_num [show digitsToNat ['6'] = 6 from by decide,
    show digitsToNat [] = 0 from rfl]

/-! ### List and character-class helper lemmas -/

lemma takeWhile_all {p : Char → Bool} :
    ∀ {xs : List Char}, (∀ c ∈ xs, p c = true) → xs.takeWhile p = xs
  | [], _ => rfl
  | x :: tx, h => by
    have hx : p x = true := h x (List.mem_cons_self x tx)
    simp only [List.takeWhile_cons, hx, if_true]
    exact congrArg (x :: ·) (takeWhile_all fun c hc => h c (List.mem_cons_of_mem x hc))

lemma takeWhile_append_stop {p : Char → Bool} :
    ∀ (xs ys : List Char), (∀ c ∈ xs, p c = true) →
      (∀ c, ys.head? = some c → p c = false) →
      (xs ++ ys).takeWhile p = xs
  | [], [], _, _ => rfl
  | [], y :: ty, _, h2 => by
    simp only [List.nil_append, List.takeWhile_cons, h2 y rfl, Bool.false_eq_true,
      if_false]
  | x :: tx, ys, h1, h2 => by
    have hx : p x = true := h1 x (List.mem_cons_self x tx)
    simp only [List.cons_append, List.takeWhile_cons, hx, if_true]
    exact congrArg (x :: ·)
      (takeWhile_append_stop tx ys (fun c hc => h1 c (List.mem_cons_of_mem x hc)) h2)

lemma dropWhile_append_stop {p : Char → Bool} :
    ∀ (xs ys : List Char), (∀ c ∈ xs, p c = true) →
      (∀ c, ys.head? = some c → p c = false) →
      (xs ++ ys).dropWhile p = ys
  | [], [], _, _ => rfl
  | [], y :: ty, _, h2 => by
    simp only [List.nil_append, List.dropWhile_cons, h2 y rfl, Bool.false_eq_true,
      if_false]
  | x :: tx, ys, h1, h2 => by
    have hx : p x = true := h1 x (List.mem_cons_self x tx)
    simp only [List.cons_append, List.dropWhile_cons, hx, if_true]
    exact dropWhile_append_stop tx ys (fun c hc => h1 c (List.mem_cons_of_mem x hc)) h2

lemma jsWhitespace_mem {c : Char} (h : jsWhitespace c = true) : c ∈ wsChars := by
  simpa [jsWhitespace] using h

lemma ws_not_op {c : Char} (h : jsWhitespace c = true) : isOpChar c = false := by
  have hm := jsWhitespace_mem h
  fin_cases hm <;> decide

lemma ws_not_num {c : Char} (h : jsWhitespace c = true) : isNumChar c = false := by
  have hm := jsWhitespace_mem h
  fin_cases hm <;> decide

lemma op_not_ws {c : Char} (h : isOpChar c = true) : jsWhitespace c = false := by
  cases hw : jsWhitespace c
  · rfl
  · rw [ws_not_op hw] at h
    exact absurd h (by simp)

lemma op_not_num {c : Char} (h : isOpChar c = true) : isNumChar c = false := by
  have h3 : (c = '>' ∨ c = '<') ∨ c = '=' := by
    simpa [isOpChar, Bool.or_eq_true, decide_eq_true_eq] using h
  rcases h3 with (h3 | h3) | h3 <;> subst h3 <;> decide

lemma num_not_ws {c : Char} (h : isNumChar c = true) : jsWhitespace c = false := by
  cases hw : jsWhitespace c
  · rfl
  · rw [ws_not_num hw] at h
    exact absurd h (by simp)

lemma num_not_op {c : Char} (h : isNumChar c = true) : isOpChar c = false := by
  cases ho : isOpChar c
  · rfl
  · rw [op_not_num ho] at h
    exact absurd h (by simp)

lemma digit_isNumChar {c : Char} (h : c.isDigit = true) : isNumChar c = true := by
  simp [isNumChar, h]

/-! ### Facts about well-shaped numerals -/

lemma NumeralShape.ne_nil {num : List Char} {t : ℚ} (h : NumeralShape num t) :
    num ≠ [] := by
  rcases h with ⟨ip, hne, _, heq, _⟩ | ⟨ip, fp, _, _, _, heq, _⟩
  · rw [heq]; exact hne
  · rw [heq]
    cases ip <;> simp

lemma NumeralShape.all_num {num : List Char} {t : ℚ} (h : NumeralShape num t) :
    ∀ c ∈ num, isNumChar c = true := by
  rcases h with ⟨ip, _, hdig, heq, _⟩ | ⟨ip, fp, _, hip, hfp, heq, _⟩
  · rw [heq]
    exact fun c hc => digit_isNumChar (hdig c hc)
  · rw [heq]
    intro c hc
    rcases List.mem_append.mp hc with hc | hc
    · exact digit_isNumChar (hip c hc)
    · rcases List.mem_cons.mp hc with hc | hc
      · subst hc; decide
      · exact digit_isNumChar (hfp c hc)

lemma dropWhile_digit_all {ip : List Char} (h : ∀ c ∈ ip, c.isDigit = true) :
    ip.dropWhile Char.isDigit = [] := by
  induction ip with
  | nil => rfl
  | cons x tx ih =>
    have hx := h x (List.mem_cons_self x tx)
    simp only [List.dropWhile_cons, hx, if_true]
    exact ih fun c hc => h c (List.mem_cons_of_mem x hc)

/-- Evaluation: `parseFloat` returns the exact value of a well-shaped numeral. -/
lemma parseFloatNum_shape {num : List Char} {t : ℚ} (h : NumeralShape num t) :
    parseFloatNum num = some t := by
  unfold NumeralShape at h
  rcases h with ⟨ip, hne, hdig, rfl, hval⟩ | ⟨ip, fp, hne, hip, hfp, rfl, hval⟩
  · have h1 : num.takeWhile Char.isDigit = num := takeWhile_all hdig
    have h2 : num.dropWhile Char.isDigit = [] := dropWhile_digit_all hdig
    unfold parseFloatNum
    rw [h1, h2]
    have h3 : num.isEmpty = false := by
      cases num
      · exact absurd rfl hne
      · rfl
    simp only [h3, Bool.false_and, Bool.false_eq_true, if_false]
    rw [hval]
    norm_num [digitsToNat]
  · have hstop : ∀ c : Char, (('.' :: fp) : List Char).head? = some c →
        Char.isDigit c = false := by
      intro c hc
      simp only [List.head?_cons, Option.some.injEq] at hc
      subst hc
      decide
    have h1 : (ip ++ '.' :: fp).takeWhile Char.isDigit = ip :=
      takeWhile_append_stop ip ('.' :: fp) hip hstop
    have h2 : (ip ++ '.' :: fp).dropWhile Char.isDigit = '.' :: fp :=
      dropWhile_append_stop ip ('.' :: fp) hip hstop
    have h4 : fp.takeWhile Char.isDigit = fp := takeWhile_all hfp
    unfold parseFloatNum
    rw [h1, h2]
    simp only [h4]
    have h5 : (ip.isEmpty && fp.isEmpty) = false := by
      rcases hne with hne | hne
      · cases ip
        · exact absurd rfl hne
        · rfl
      · cases fp
        · exact absurd rfl hne
        · cases ip <;> simp
    rw [h5]
    simp only [Bool.false_eq_true, if_false]
    rw [hval]

/-! ### The regex finds exactly the operator and numeral of a
well-formed condition string -/

lemma opText_props {o : CmpOp} {opc : List Char} (h : opc ∈ opTextOf o) :
    opc ≠ [] ∧ ∀ c ∈ opc, isOpChar c = true := by
  cases o <;> simp only [opTextOf, List.mem_cons, List.mem_singleton,
    List.not_mem_nil, or_false] at h
  case gt => subst h; exact ⟨by simp, by decide⟩
  case ge => subst h; exact ⟨by simp, by decide⟩
  case lt => subst h; exact ⟨by simp, by decide⟩
  case le => subst h; exact ⟨by simp, by decide⟩
  case eq =>
    rcases h with h | h <;> subst h
    · exact ⟨by simp, by decide⟩
    · exact ⟨by simp, by decide⟩

lemma matchCondAt_shape {a p y : Char} {w1 opc w2 num pct : List Char}
    (ha : apyA a = true) (hp2 : apyP p = true) (hy : apyY y = true)
    (hw1 : ∀ c ∈ w1, jsWhitespace c = true)
    (hw2 : ∀ c ∈ w2, jsWhitespace c = true)
    (hopne : opc ≠ []) (hopc : ∀ c ∈ opc, isOpChar c = true)
    (hnumne : num ≠ []) (hnum : ∀ c ∈ num, isNumChar c = true)
    (hpct : pct = [] ∨ pct = ['%']) :
    matchCondAt (a :: p :: y :: (w1 ++ opc ++ w2 ++ num ++ pct)) = some (opc, num) := by
  have hnumhead : ∀ c : Char, (num ++ pct).head? = some c → isNumChar c = true := by
    intro c hc
    cases num with
    | nil => exact absurd rfl hnumne
    | cons n tn =>
      simp only [List.cons_append, List.head?_cons, Option.some.injEq] at hc
      subst hc
      exact hnum n (List.mem_cons_self n tn)
  have hafterop : ∀ c : Char, (w2 ++ (num ++ pct)).head? = some c →
      isOpChar c = false := by
    intro c hc
    cases w2 with
    | nil =>
      simp only [List.nil_append] at hc
      exact num_not_op (hnumhead c hc)
    | cons w tw =>
      simp only [List.cons_append, List.head?_cons, Option.some.injEq] at hc
      subst hc
      exact ws_not_op (hw2 w (List.mem_cons_self w tw))
  have hophead : ∀ c : Char, (opc ++ (w2 ++ (num ++ pct))).head? = some c →
      jsWhitespace c = false := by
    intro c hc
    cases opc with
    | nil => exact absurd rfl hopne
    | cons o tos =>
      simp only [List.cons_append, List.head?_cons, Option.some.injEq] at hc
      subst hc
      exact op_not_ws (hopc o (List.mem_cons_self o tos))
  have hnumafterws : ∀ c : Char, (num ++ pct).head? = some c →
      jsWhitespace c = false :=
    fun c hc => num_not_ws (hnumhead c hc)
  have hA : matchAPY (a :: p :: y :: (w1 ++ opc ++ w2 ++ num ++ pct)) =
      some (w1 ++ opc ++ w2 ++ num ++ pct) := by
    simp [matchAPY, ha, hp2, hy]
  simp only [matchCondAt, hA]
  have e1 : (w1 ++ opc ++ w2 ++ num ++ pct).dropWhile jsWhitespace =
      opc ++ (w2 ++ (num ++ pct)) := by
    have : w1 ++ opc ++ w2 ++ num ++ pct = w1 ++ (opc ++ (w2 ++ (num ++ pct))) := by
      simp [List.append_assoc]
    rw [this]
    exact dropWhile_append_stop w1 _ hw1 hophead
  rw [e1]
  have e2 : (opc ++ (w2 ++ (num ++ pct))).takeWhile isOpChar = opc :=
    takeWhile_append_stop opc _ hopc hafterop
  have e3 : (opc ++ (w2 ++ (num ++ pct))).dropWhile isOpChar = w2 ++ (num ++ pct) :=
    dropWhile_append_stop opc _ hopc hafterop
  rw [e2, e3]
  have hopem : opc.isEmpty = false := by
    cases opc
    · exact absurd rfl hopne
    · rfl
  simp only [hopem, Bool.false_eq_true, if_false]
  have e4 : (w2 ++ (num ++ pct)).dropWhile jsWhitespace = num ++ pct :=
    dropWhile_append_stop w2 _ hw2 hnumafterws
  rw [e4]
  have e5 : (num ++ pct).takeWhile isNumChar = num := by
    refine takeWhile_append_stop num pct hnum ?_
    intro c hc
    rcases hpct with hpct | hpct <;> subst hpct
    · simp at hc
    · simp only [List.head?_cons, Option.some.injEq] at hc
      subst hc
      decide
  rw [e5]
  have hnumem : num.isEmpty = false := by
    cases num
    · exact absurd rfl hnumne
    · rfl
  simp only [hnumem, Bool.false_eq_true, if_false]

lemma findCondMatch_head {cs : List Char} {r : List Char × List Char}
    (hne : cs ≠ []) (h : matchCondAt cs = some r) : findCondMatch cs = some r := by
  cases cs with
  | nil => exact absurd rfl hne
  | cons c tc =>
    unfold findCondMatch
    rw [h]

lemma condCompare_text {o : CmpOp} {opc : List Char} (h : opc ∈ opTextOf o)
    (r t : ℚ) : condCompare opc r (some t) = cmpEval o r t := by
  cases o <;> simp only [opTextOf, List.mem_cons, List.mem_singleton,
    List.not_mem_nil, or_false] at h
  case gt => subst h; rfl
  case ge => subst h; rfl
  case lt => subst h; rfl
  case le => subst h; rfl
  case eq =>
    rcases h with h | h <;> subst h <;> rfl

/-! ### Claim C1 -/

/-- C1 (amended): for every condition string of the exact well-formed
shape `APY {op} T%` the evaluator returns precisely the mathematical
comparison of the current rate against `T` (`=`/`==` meaning
equality), and for every string in which the pattern
`APY [><=]+ number` occurs nowhere as a substring it returns `false`.
(The evaluator is a total function, so it yields a boolean and never
raises on any input.)  The original claim's stronger clause — that
every string not of the well-formed shape yields `false` — is refuted
by `claim_C1_counterexample`: the regex scan is unanchored, so the
leftmost embedded occurrence of the pattern governs the result. -/
theorem claim_C1 :
    (∀ (s : YieldStrategy) (o : CmpOp) (t r : ℚ),
      CondShape s.strategy.lendingProtocol.investmentCondition.data o t →
      shouldInvestInLendingProtocol s r = cmpEval o r t) ∧
    (∀ (s : YieldStrategy) (r : ℚ),
      findCondMatch s.strategy.lendingProtocol.investmentCondition.data = none →
      shouldInvestInLendingProtocol s r = false) := by
  constructor
  · intro s o t r h
    unfold CondShape at h
    obtain ⟨a, p, y, w1, opc, w2, num, pct, ha, hp2, hy, hw1, hw2, hop, hnum,
      hpct, heq⟩ := h
    obtain ⟨hopne, hopc⟩ := opText_props hop
    have hm := matchCondAt_shape ha hp2 hy hw1 hw2 hopne hopc
      hnum.ne_nil hnum.all_num hpct
    have hf : findCondMatch s.strategy.lendingProtocol.investmentCondition.data =
        some (opc, num) := by
      rw [heq]
      exact findCondMatch_head (by simp) hm
    rw [shouldInvest_eq_condCompare s opc num r hf, parseFloatNum_shape hnum,
      condCompare_text hop]
  · intro s r h
    exact shouldInvest_eq_false r h

/-- Witness for C1: `"APY > 6%"` against rate 7 evaluates to the
mathematical comparison `7 > 6`. -/
theorem claim_C1_witness :
    shouldInvestInLendingProtocol wStrategy 7 = cmpEval CmpOp.gt 7 6 :=
  claim_C1.1 wStrategy CmpOp.gt 6 7
    ⟨'A', 'P', 'Y', [' '], ['>'], [' '], ['6'], ['%'],
     by decide, by decide, by decide, by decide, by decide, by decide,
     Or.inl ⟨['6'], by simp, by decide, rfl,
       by norm_num [show digitsToNat ['6'] = 6 from by decide]⟩,
     Or.inr rfl, by decide⟩

/-- Counterexample to C1 as stated: `"xAPY > 5%"` is not of the
well-formed shape (it does not start with `APY`), yet at rate 6 the
evaluator returns `true`, not `false`, because the unanchored regex
matches the embedded occurrence starting at index 1. -/
theorem claim_C1_counterexample :
    (¬ ∃ o t, CondShape "xAPY > 5%".data o t) ∧
    shouldInvestInLendingProtocol wEmbeddedCondStrategy 6 = true := by
  constructor
  · rintro ⟨o, t, h⟩
    unfold CondShape at h
    obtain ⟨a, p, y, w1, opc, w2, num, pct, ha, -, -, -, -, -, -, -, heq⟩ := h
    have hd : "xAPY > 5%".data =
        'x' :: 'A' :: 'P' :: 'Y' :: ' ' :: '>' :: ' ' :: '5' :: '%' :: [] := by
      decide
    rw [hd] at heq
    have hax : 'x' = a := by
      injection heq with h1 _
    rw [← hax] at ha
    exact absurd ha (by decide)
  · have hp5 : parseFloatNum ['5'] = some 5 := by
      have h : parseFloatNum ['5'] =
          some ((digitsToNat ['5'] : ℚ) + (digitsToNat [] : ℚ) / 10 ^ (0 : ℕ)) := rfl
      rw [h]
      norm_num [show digitsToNat ['5'] = 5 from by decide,
        show digitsToNat [] = 0 from rfl]
    rw [shouldInvest_eq_condCompare wEmbeddedCondStrategy ['>'] ['5'] 6 (by decide),
      hp5]
    decide

/-! ### Claim C2 -/

/-- C2: every successful run of the lending-allocation executor builds
a batch of exactly two sub-calls in fixed order — an approve of the
lending pool for the computed amount addressed to the token contract,
then a deposit of the same amount addressed to the lending pool — with
both native-value entries zero, inside the single vault transaction. -/
theorem claim_C2 (strategy : YieldStrategy) (vaultAddress lendingPoolAddress : String)
    (totalAmount : Int) (cfg : NetworkConfig) (tx : ExecuteTx)
    (h : executeLendingAllocation strategy vaultAddress lendingPoolAddress
      totalAmount cfg = Except.ok tx) :
    ∃ amount,
      computeAmount totalAmount (lendingPercentageOf strategy) = Except.ok amount ∧
      tx.vault = vaultAddress ∧
      tx.contracts = [cfg.tokenAddress, lendingPoolAddress] ∧
      tx.callData = [CallData.approve lendingPoolAddress amount,
                     CallData.deposit amount] ∧
      tx.msgValues = [0, 0] := by
  unfold executeLendingAllocation at h
  cases hc : computeAmount totalAmount (lendingPercentageOf strategy) with
  | error e =>
    rw [hc] at h
    exact absurd h (by simp)
  | ok amount =>
    simp only [hc] at h
    by_cases ht : cfg.tokenAddress = ""
    · rw [if_pos ht] at h
      exact absurd h (by simp)
    · rw [if_neg ht] at h
      simp only [Except.ok.injEq] at h
      subst h
      exact ⟨amount, rfl, rfl, rfl, rfl, rfl⟩

/-- Witness for C2 at the spec §8 scenario: balance 1000000,
percentage 70, batch `[approve 700000, deposit 700000]`. -/
theorem claim_C2_witness :
    ∃ amount,
      computeAmount 1000000 (lendingPercentageOf wStrategy) = Except.ok amount ∧
      wTx.vault = "0xVault" ∧
      wTx.contracts = [wConfig.tokenAddress, "0xPool"] ∧
      wTx.callData = [CallData.approve "0xPool" amount,
                      CallData.deposit amount] ∧
      wTx.msgValues = [0, 0] :=
  claim_C2 wStrategy "0xVault" "0xPool" 1000000 wConfig wTx rfl

/-! ### Claim C3 -/

/-- C3: for nonnegative balance and positive percentage the allocation
amount is the floor of `b * p / 100` (BigInt division truncates, and
truncation equals floor on nonnegative values); in particular
`computeAmount 1000 70 = 700` and `computeAmount 999 70 = 699`. -/
theorem claim_C3 :
    (∀ b p : Int, 0 ≤ b → 0 < p →
      computeAmount b p = Except.ok (Int.fdiv (b * p) 100)) ∧
    computeAmount 1000 70 = Except.ok 700 ∧
    computeAmount 999 70 = Except.ok 699 := by
  refine ⟨?_, rfl, rfl⟩
  intro b p hb hp
  unfold computeAmount
  rw [if_neg (not_le.mpr hp)]
  rw [Int.fdiv_eq_tdiv (mul_nonneg hb hp.le) (by norm_num)]

/-- Witness for C3's universal part at `b = 1000`, `p = 70`. -/
theorem claim_C3_witness :
    computeAmount 1000 70 = Except.ok (Int.fdiv (1000 * 70) 100) :=
  claim_C3.1 1000 70 (by norm_num) (by norm_num)

/-! ### Claim C4 -/

/-- C4: whenever the strategy's lending percentage is zero, negative or
unset (the `|| 0` fallback), the executor fails with the no-allocation
error before any transaction is built; `computeAmount x 0` and
`computeAmount x (-5)` fail likewise for every balance `x`. -/
theorem claim_C4 :
    (∀ (strategy : YieldStrategy) (v l : String) (x : Int) (cfg : NetworkConfig),
      lendingPercentageOf strategy ≤ 0 →
      executeLendingAllocation strategy v l x cfg =
        Except.error ExecError.noAllocation) ∧
    (∀ x : Int, computeAmount x 0 = Except.error ExecError.noAllocation) ∧
    (∀ x : Int, computeAmount x (-5) = Except.error ExecError.noAllocation) := by
  refine ⟨?_, ?_, ?_⟩
  · intro strategy v l x cfg h
    unfold executeLendingAllocation computeAmount
    rw [if_pos h]
  · intro x
    unfold computeAmount
    rw [if_pos (by norm_num)]
  · intro x
    unfold computeAmount
    rw [if_pos (by norm_num)]

/-- Witness for C4: a strategy with no `lendingProtocol` allocation
entry makes the executor fail with the no-allocation error. -/
theorem claim_C4_witness :
    executeLendingAllocation wNoLendingStrategy "0xVault" "0xPool" 1000 wConfig =
      Except.error ExecError.noAllocation :=
  claim_C4.1 wNoLendingStrategy "0xVault" "0xPool" 1000 wConfig (by decide)

/-! ### Claim C5 -/

/-- C5: for `0 ≤ b` and `0 < p ≤ 100` the computed transfer amount
never exceeds the vault's total balance. -/
theorem claim_C5 (b p : Int) (hb : 0 ≤ b) (hp : 0 < p) (hple : p ≤ 100)
    (amount : Int) (h : computeAmount b p = Except.ok amount) : amount ≤ b := by
  unfold computeAmount at h
  rw [if_neg (not_le.mpr hp)] at h
  simp only [Except.ok.injEq] at h
  subst h
  rw [Int.tdiv_eq_ediv (mul_nonneg hb hp.le) (by norm_num)]
  calc b * p / 100 ≤ b * 100 / 100 :=
        Int.ediv_le_ediv (by norm_num) (mul_le_mul_of_nonneg_left hple hb)
    _ = b := Int.mul_ediv_cancel b (by norm_num)

/-- Witness for C5 at `b = 1000`, `p = 70`, amount 700. -/
theorem claim_C5_witness : (700 : Int) ≤ 1000 :=
  claim_C5 1000 70 (by norm_num) (by norm_num) (by norm_num) 700 rfl

/-! ### Claim C10 -/

/-- C10: when `assetAllocation` has no entry under the exact key
`lendingProtocol`, the executor fails with the no-allocation error and
builds no transaction, whatever the other entries are — it reads only
the `lendingProtocol` entry. -/
theorem claim_C10 (strategy : YieldStrategy) (v l : String) (x : Int)
    (cfg : NetworkConfig)
    (h : lookupAsset strategy.strategy.assetAllocation "lendingProtocol" = none) :
    executeLendingAllocation strategy v l x cfg =
      Except.error ExecError.noAllocation := by
  have hp : lendingPercentageOf strategy = 0 := by
    unfold lendingPercentageOf
    rw [h]
    rfl
  unfold executeLendingAllocation computeAmount
  rw [hp, if_pos (le_refl (0 : Int))]

/-- Witness for C10: the `stablecoin`/`eth` strategy has no
`lendingProtocol` key, so the executor errors. -/
theorem claim_C10_witness :
    executeLendingAllocation wNoLendingStrategy "0xVault" "0xPool" 500000 wConfig =
      Except.error ExecError.noAllocation :=
  claim_C10 wNoLendingStrategy "0xVault" "0xPool" 500000 wConfig (by decide)

/-! ### Claim C6 -/

/-- C6: with both addresses configured, whenever the condition
evaluates false, or the balance read returns a value ≤ 0, the
orchestrator returns a clean skip: `null` receipt, no submitted
transaction, and no error. -/
theorem claim_C6 (strategy : YieldStrategy) (cfg : NetworkConfig) (env : ChainEnv)
    (hv : cfg.strategyVaultAddress ≠ "") (hl : cfg.lendingPoolAddress ≠ "")
    (h : shouldInvestInLendingProtocol strategy cfg.currentAPY = false ∨
         ∃ b, env.balance = Except.ok b ∧ b ≤ 0) :
    executeFullStrategy strategy cfg env = Except.ok none ∧
    ∀ tx, Event.submitTx tx ∉ (runFullStrategy strategy cfg env).1 := by
  have key : runFullStrategy strategy cfg env = ([], Except.ok none) ∨
      runFullStrategy strategy cfg env = ([Event.balanceRead], Except.ok none) := by
    unfold runFullStrategy
    rcases h with h | ⟨b, hb, hble⟩
    · left
      simp [hv, hl, h]
    · by_cases hc : shouldInvestInLendingProtocol strategy cfg.currentAPY
      · right
        simp [hv, hl, hc, hb, hble]
      · left
        simp [hv, hl, hc]
  unfold executeFullStrategy
  rcases key with k | k <;> rw [k] <;> exact ⟨rfl, by intro tx; simp⟩

/-- Witness for C6: vault balance 0 gives a clean skip. -/
theorem claim_C6_witness :
    executeFullStrategy wStrategy wConfig wZeroBalanceEnv = Except.ok none ∧
    ∀ tx, Event.submitTx tx ∉ (runFullStrategy wStrategy wConfig wZeroBalanceEnv).1 :=
  claim_C6 wStrategy wConfig wZeroBalanceEnv (by decide) (by decide)
    (Or.inr ⟨0, rfl, by norm_num⟩)

/-! ### Claims C7, C8, C9: handler-level properties -/

/-- The fixture strategy's condition `"APY > 6%"` holds at rate 7. -/
lemma wStrategy_invest_true : shouldInvestInLendingProtocol wStrategy 7 = true := by
  rw [shouldInvest_eq_condCompare wStrategy ['>'] ['6'] 7 (by decide)]
  have h : parseFloatNum ['6'] =
      some ((digitsToNat ['6'] : ℚ) + (digitsToNat [] : ℚ) / 10 ^ (0 : ℕ)) := rfl
  have h6 : parseFloatNum ['6'] = some 6 := by
    rw [h]
    norm_num [show digitsToNat ['6'] = 6 from by decide,
      show digitsToNat [] = 0 from rfl]
  rw [h6]
  decide

/-- The events of a full-strategy run are one of three shapes: nothing,
a balance read, or a balance read followed by one batch submission. -/
lemma runFullStrategy_events (strategy : YieldStrategy) (cfg : NetworkConfig)
    (env : ChainEnv) :
    (runFullStrategy strategy cfg env).1 = [] ∨
    (runFullStrategy strategy cfg env).1 = [Event.balanceRead] ∨
    ∃ tx, (runFullStrategy strategy cfg env).1 =
      [Event.balanceRead, Event.submitTx tx] := by
  unfold runFullStrategy
  by_cases h1 : cfg.strategyVaultAddress = ""
  · simp [h1]
  by_cases h2 : cfg.lendingPoolAddress = ""
  · simp [h1, h2]
  by_cases h3 : shouldInvestInLendingProtocol strategy cfg.currentAPY
  · cases hb : env.balance with
    | error e => simp [h1, h2, h3, hb]
    | ok b =>
      by_cases h4 : b ≤ 0
      · simp [h1, h2, h3, hb, h4]
      · cases he : executeLendingAllocation strategy cfg.strategyVaultAddress
            cfg.lendingPoolAddress b cfg with
        | error e => simp [h1, h2, h3, hb, h4, he]
        | ok tx => cases hs : env.submitResult <;> simp [h1, h2, h3, hb, h4, he, hs]
  · simp [h1, h2, h3]

/-- No anchor transaction is ever emitted by the full-strategy step. -/
lemma anchorTx_not_in_runFullStrategy (strategy : YieldStrategy)
    (cfg : NetworkConfig) (env : ChainEnv) (i : Int) (u : String) :
    Event.anchorTx i u ∉ (runFullStrategy strategy cfg env).1 := by
  rcases runFullStrategy_events strategy cfg env with k | k | ⟨tx, k⟩ <;>
    rw [k] <;> simp

/-- When the message is fresh, the handler runs the substantive body. -/
lemma runExecuteStrategyAction_fresh {msg : Msg} (env : ActionEnv)
    (hp : ¬ msg.processed = some "EXECUTE_YIELD_STRATEGY") :
    runExecuteStrategyAction msg env =
      { events := (executionPhases env).1
        outcome := (executionPhases env).2
        msgAfter := { id := msg.id, processed := some "EXECUTE_YIELD_STRATEGY" } } := by
  unfold runExecuteStrategyAction
  rw [if_neg hp]

/-- C7: when the allocation step fails with a chain error, the handler
still proceeds to publication, and when the upload succeeds the
outcome carries the provenance record alongside the recorded
allocation error. -/
theorem claim_C7 (msg : Msg) (env : ActionEnv) (strategy : YieldStrategy)
    (e : ChainErr) (res : IpfsResult)
    (hp : ¬ msg.processed = some "EXECUTE_YIELD_STRATEGY")
    (hs : env.storedStrategy = some (Except.ok strategy))
    (ha : (runFullStrategy strategy env.cfg env.chain).2 =
      Except.error (StratError.chain e))
    (hi : env.ipfs = Except.ok res) :
    Event.uploadIpfs ∈ (runExecuteStrategyAction msg env).events ∧
    (runExecuteStrategyAction msg env).outcome.ipfsData = some res ∧
    (runExecuteStrategyAction msg env).outcome.allocationError =
      some (StratError.chain e) := by
  rw [runExecuteStrategyAction_fresh env hp]
  by_cases hcid : res.cid = ""
  · simp [executionPhases, hs, hi, ha, hcid]
  · cases han : env.anchorResult <;> simp [executionPhases, hs, hi, ha, hcid, han]

/-- Witness for C7: RPC down during the allocation step, publication
succeeding; the outcome still carries the provenance record. -/
theorem claim_C7_witness :
    Event.uploadIpfs ∈ (runExecuteStrategyAction ⟨"m1", none⟩ wFailAllocEnv).events ∧
    (runExecuteStrategyAction ⟨"m1", none⟩ wFailAllocEnv).outcome.ipfsData =
      some wIpfs ∧
    (runExecuteStrategyAction ⟨"m1", none⟩ wFailAllocEnv).outcome.allocationError =
      some (StratError.chain ⟨"rpc down"⟩) :=
  claim_C7 ⟨"m1", none⟩ wFailAllocEnv wStrategy ⟨"rpc down"⟩ wIpfs (by simp) rfl
    (by simp [runFullStrategy, wFailAllocEnv, wConfig, wFailChainEnv,
      wStrategy_invest_true]) rfl

/-- C8: when publication fails the anchor step is never attempted and
the outcome's anchor and provenance fields are null; conversely an
anchor transaction is emitted only when publication succeeded with a
non-empty identifier. -/
theorem claim_C8 :
    (∀ (msg : Msg) (env : ActionEnv) (pe : PublishErr),
      env.ipfs = Except.error pe →
      (runExecuteStrategyAction msg env).outcome.anchorReceipt = none ∧
      (runExecuteStrategyAction msg env).outcome.ipfsData = none ∧
      ∀ (i : Int) (u : String),
        Event.anchorTx i u ∉ (runExecuteStrategyAction msg env).events) ∧
    (∀ (msg : Msg) (env : ActionEnv) (i : Int) (u : String),
      Event.anchorTx i u ∈ (runExecuteStrategyAction msg env).events →
      ∃ res, env.ipfs = Except.ok res ∧ res.cid ≠ "") := by
  constructor
  · intro msg env pe hi
    by_cases hp : msg.processed = some "EXECUTE_YIELD_STRATEGY"
    · unfold runExecuteStrategyAction
      simp [hp, emptyOutcome]
    · rw [runExecuteStrategyAction_fresh env hp]
      rcases hss : env.storedStrategy with _ | es
      · simp [executionPhases, hss, emptyOutcome]
      · cases es with
        | error msg2 => simp [executionPhases, hss, emptyOutcome]
        | ok strategy =>
          refine ⟨?_, ?_, ?_⟩ <;>
            simp [executionPhases, hss, hi, anchorTx_not_in_runFullStrategy]
  · intro msg env i u hmem
    by_cases hp : msg.processed = some "EXECUTE_YIELD_STRATEGY"
    · unfold runExecuteStrategyAction at hmem
      simp [hp] at hmem
    · rw [runExecuteStrategyAction_fresh env hp] at hmem
      rcases hss : env.storedStrategy with _ | es
      · simp [executionPhases, hss] at hmem
      · cases es with
        | error msg2 => simp [executionPhases, hss] at hmem
        | ok strategy =>
          rcases hi : env.ipfs with pe | res
          · simp [executionPhases, hss, hi] at hmem
            exact absurd hmem
              (anchorTx_not_in_runFullStrategy strategy env.cfg env.chain i u)
          · by_cases hcid : res.cid = ""
            · simp [executionPhases, hss, hi, hcid] at hmem
              exact absurd hmem
                (anchorTx_not_in_runFullStrategy strategy env.cfg env.chain i u)
            · exact ⟨res, rfl, hcid⟩

/-- Witness for C8: publication failure leaves both the anchor receipt
and the provenance record null and emits no anchor transaction. -/
theorem claim_C8_witness :
    (runExecuteStrategyAction ⟨"m2", none⟩ wPublishFailEnv).outcome.anchorReceipt =
      none ∧
    (runExecuteStrategyAction ⟨"m2", none⟩ wPublishFailEnv).outcome.ipfsData =
      none ∧
    ∀ (i : Int) (u : String),
      Event.anchorTx i u ∉ (runExecuteStrategyAction ⟨"m2", none⟩ wPublishFailEnv).events :=
  claim_C8.1 ⟨"m2", none⟩ wPublishFailEnv ⟨"Pinata upload failed"⟩ rfl

/-- C9 (amended): the execute orchestrator deduplicates through the
mutable `content.processed` flag of the message object itself — after
any invocation the message is marked, and re-invoking the handler on
that same marked message object returns immediately with an empty
outcome and no external contact.  It consults no process-wide registry
keyed by the request identifier; `claim_C9_counterexample` shows that a
duplicate delivered as a distinct message object carrying the same
identifier is fully reprocessed, so the original claim's
identifier-keyed exactly-once guarantee fails. -/
theorem claim_C9 (msg : Msg) (env : ActionEnv) :
    (runExecuteStrategyAction msg env).msgAfter.processed =
      some "EXECUTE_YIELD_STRATEGY" ∧
    runExecuteStrategyAction (runExecuteStrategyAction msg env).msgAfter env =
      { events := [], outcome := emptyOutcome
        msgAfter := (runExecuteStrategyAction msg env).msgAfter } := by
  have hshort : ∀ m : Msg, m.processed = some "EXECUTE_YIELD_STRATEGY" →
      runExecuteStrategyAction m env =
        { events := [], outcome := emptyOutcome, msgAfter := m } := by
    intro m hm
    unfold runExecuteStrategyAction
    rw [if_pos hm]
  have hmark : (runExecuteStrategyAction msg env).msgAfter.processed =
      some "EXECUTE_YIELD_STRATEGY" := by
    unfold runExecuteStrategyAction
    by_cases hp : msg.processed = some "EXECUTE_YIELD_STRATEGY" <;> simp [hp]
  exact ⟨hmark, hshort _ hmark⟩

/-- Concrete evaluation of the healthy end-to-end run. -/
lemma wRunFull : runFullStrategy wStrategy wConfig wChainEnv =
    ([Event.balanceRead, Event.submitTx wTx], Except.ok (some (wTx, wReceipt))) := by
  unfold runFullStrategy
  rw [show wConfig.currentAPY = (7 : ℚ) from rfl, wStrategy_invest_true]
  rfl

/-- Concrete evaluation of one fresh handler invocation in the healthy
environment. -/
lemma wRunAction : runExecuteStrategyAction ⟨"m1", none⟩ wActionEnv =
    ⟨[Event.fetchMemories, Event.balanceRead, Event.submitTx wTx, Event.uploadIpfs,
      Event.anchorTx 1 wIpfs.gatewayUrl, Event.storeRecord, Event.callbackToUser],
     ⟨some wReceipt, none, some wIpfs, some wAnchorReceipt, none⟩,
     ⟨"m1", some "EXECUTE_YIELD_STRATEGY"⟩⟩ := by
  rw [runExecuteStrategyAction_fresh wActionEnv (by simp)]
  simp only [executionPhases,
    show wActionEnv.storedStrategy = some (Except.ok wStrategy) from rfl,
    show wActionEnv.cfg = wConfig from rfl,
    show wActionEnv.chain = wChainEnv from rfl,
    wRunFull,
    show wActionEnv.ipfs = Except.ok wIpfs from rfl,
    show wActionEnv.anchorResult = Except.ok wAnchorReceipt from rfl]
  rfl

/-- Counterexample to C9 as stated: the execute handler keys its dedup
on the message object's own `processed` flag and never consults the
request identifier, so a duplicate trigger delivered as a distinct,
fresh message object with the same identifier `"m1"` is fully
reprocessed — two invocations submit two allocation transactions, not
one, and the second invocation's event trace is not empty. -/
theorem claim_C9_counterexample :
    countSubmitTx ((runExecuteStrategyAction ⟨"m1", none⟩ wActionEnv).events ++
      (runExecuteStrategyAction ⟨"m1", none⟩ wActionEnv).events) = 2 ∧
    (runExecuteStrategyAction ⟨"m1", none⟩ wActionEnv).events ≠ [] := by
  rw [wRunAction]
  constructor
  · decide
  · decide

end VaultAgent
